import Mathlib

/-
  Verification development for the supervisor in setup_rtsp_audio.cpp.

  The program shells out to an audio server (`pactl`, `pw-cli`) and to an
  external pipeline binary (`ffmpeg`), and manages child processes with
  fork/execvp/waitpid.  The shallow embedding below models:
    * the text listings the audio server produces and the exact string
      searches the program runs over them (sink_exists / source_exists,
      and the grep/tail/sed pipeline used at cleanup);
    * the audio-server state as a table of named sinks/sources with numeric
      ids (the server is an external collaborator; its module-load and
      destroy commands are modelled as adding/removing entries);
    * the process table touched by fork/execvp/_exit(127)/waitpid(WNOHANG);
    * the supervisor's own control flow (provisioning, spawning, the
      interactive loop, the signal handler, restart and cleanup), translated
      line by line from src/setup_rtsp_audio.cpp.
-/

set_option maxRecDepth 20000

namespace SetupRtspAudio

/-- Characters of a C++ std::string, modelled as a list of characters. -/
abbrev Str := List Char

def tabC : Char := '\t'

def nlC : Char := '\n'

/-- `hasPre p s` holds when `p` is a leading segment of `s`
(used to build the substring search of `std::string::find`). -/
def hasPre : Str → Str → Bool
  | [], _ => true
  | _ :: _, [] => false
  | p :: ps, s :: ss => p == s && hasPre ps ss

/-- `occursIn p s` is `std::string::find(p) != npos` on `s`:
`p` occurs somewhere inside `s` as a contiguous substring. -/
def occursIn (p : Str) : Str → Bool
  | [] => p.isEmpty
  | s :: ss => hasPre p (s :: ss) || occursIn p ss

/-- Join a list of pieces with a single separator character between
consecutive pieces (the shape of line- and field-separated listings). -/
def interc (c : Char) : List Str → Str
  | [] => []
  | [f] => f
  | f :: g :: gs => f ++ c :: interc c (g :: gs)

/-- Decimal digits of `n` (fuel-based so that it reduces in the kernel). -/
def natStrAux : Nat → Nat → Str
  | 0, _ => []
  | _ + 1, 0 => []
  | fuel + 1, n + 1 => natStrAux fuel ((n + 1) / 10) ++ [Nat.digitChar ((n + 1) % 10)]

/-- Decimal rendering of a numeric id, as the server prints it. -/
def natStr (n : Nat) : Str :=
  if n = 0 then ['0'] else natStrAux n n

/- ----------------------------------------------------------------- -/
/- pactl short listings and the existence checks (source lines 239-251) -/
/- ----------------------------------------------------------------- -/

/-- Driver column of a `pactl list short` row (modelled server output). -/
def driverField : Str := "PipeWire".toList

/-- Sample-spec column of a `pactl list short` row (modelled server output). -/
def specField : Str := "s16le 2ch 48000Hz".toList

/-- State column of a `pactl list short` row (modelled server output). -/
def stateField : Str := "SUSPENDED".toList

/-- One row of `pactl list short sinks/sources`:
tab-separated `<id>\t<name>\t<driver>\t<sample spec>\t<state>`
(the source's own comment shows the shape: `82  rtsp_spk  PipeWire...`). -/
def shortRow (e : Nat × Str) : Str :=
  interc tabC [natStr e.1, e.2, driverField, specField, stateField]

/-- The whole short listing: rows joined by newlines.  `run_command_output`
trims trailing newlines, so there is no trailing separator. -/
def shortListing (entries : List (Nat × Str)) : Str :=
  interc nlC (entries.map shortRow)

/-- `sink_exists` from setup_rtsp_audio.cpp lines 239-245: search the whole
`pactl list short sinks` output for `"\t" + sink_name + "\t"`. -/
def sink_exists (sinks : List (Nat × Str)) (sink_name : Str) : Bool :=
  occursIn (tabC :: (sink_name ++ [tabC])) (shortListing sinks)

/-- `source_exists` from setup_rtsp_audio.cpp lines 247-251: same search over
the `pactl list short sources` output. -/
def source_exists (sources : List (Nat × Str)) (source_name : Str) : Bool :=
  occursIn (tabC :: (source_name ++ [tabC])) (shortListing sources)

/- ----------------------------------------------------------------- -/
/- Audio-server state and the provisioning step (source lines 284-310) -/
/- ----------------------------------------------------------------- -/

/-- The audio server's routing state: tables of named sinks and sources with
numeric ids, plus the next id the server will assign.  The server is an
external collaborator; this models its public behaviour (spec section 6). -/
structure AudioServer where
  nextId : Nat
  sinks : List (Nat × Str)
  sources : List (Nat × Str)
deriving DecidableEq

/-- Mutating commands the program issues to the audio server. -/
inductive Cmd where
  | loadNullSink (name desc : Str)
  | loadRemapSource (name master desc : Str)
  | destroyNode (id : Str)
deriving DecidableEq

/-- Server effect of `pactl load-module module-null-sink sink_name=<name>`:
a new sink with a fresh id, plus its automatic monitor source. -/
def load_null_sink (s : AudioServer) (name : Str) : AudioServer :=
  { nextId := s.nextId + 2,
    sinks := s.sinks ++ [(s.nextId, name)],
    sources := s.sources ++ [(s.nextId + 1, name ++ ".monitor".toList)] }

/-- Server effect of `pactl load-module module-remap-source source_name=<name>`:
a new source with a fresh id. -/
def load_remap_source (s : AudioServer) (name : Str) : AudioServer :=
  { s with nextId := s.nextId + 1,
           sources := s.sources ++ [(s.nextId, name)] }

/-- Result of one provisioning step (spec's `ensureEndpoint`). -/
structure EnsureResult where
  createdByUs : Bool
  cmds : List Cmd
  server : AudioServer
deriving DecidableEq

/-- One query-then-create step for a sink, as inlined in main
(lines 284-300): if `sink_exists` reports the name, skip; otherwise issue
the module-null-sink load command. -/
def ensure_sink (srv : AudioServer) (name desc : Str) : EnsureResult :=
  if sink_exists srv.sinks name then ⟨false, [], srv⟩
  else ⟨true, [Cmd.loadNullSink name desc], load_null_sink srv name⟩

/-- The query-then-create step for the remap source, as inlined in main
(lines 302-310). -/
def ensure_remap_source (srv : AudioServer) (name master desc : Str) : EnsureResult :=
  if source_exists srv.sources name then ⟨false, [], srv⟩
  else ⟨true, [Cmd.loadRemapSource name master desc], load_remap_source srv name⟩

def spkName : Str := "rtsp_spk".toList

def micSinkName : Str := "rtsp_mic_sink".toList

def micSrcName : Str := "rtsp_mic".toList

def spkDesc : Str := "RTSP_Speaker".toList

def micSinkDesc : Str := "RTSP_Mic_Sink".toList

def micSrcDesc : Str := "RTSP_Mic".toList

def micMaster : Str := "rtsp_mic_sink.monitor".toList

/-- First provisioning step of main (lines 284-291): speaker sink. -/
def prov_step1 (srv : AudioServer) : EnsureResult :=
  ensure_sink srv spkName spkDesc

/-- Second provisioning step of main (lines 293-300): mic sink. -/
def prov_step2 (srv : AudioServer) : EnsureResult :=
  ensure_sink (prov_step1 srv).server micSinkName micSinkDesc

/-- Third provisioning step of main (lines 302-310): remap source on the mic
sink's monitor. -/
def prov_step3 (srv : AudioServer) : EnsureResult :=
  ensure_remap_source (prov_step2 srv).server micSrcName micMaster micSrcDesc

/-- Outcome of the whole provisioning sequence of main (lines 284-310). -/
structure ProvisionResult where
  spkCreated : Bool
  micCreated : Bool
  remapCreated : Bool
  cmds : List Cmd
  server : AudioServer
deriving DecidableEq

/-- The provisioning sequence of main (lines 284-310), in program order:
speaker sink, then mic sink, then mic remap source. -/
def provision (srv : AudioServer) : ProvisionResult :=
  ⟨(prov_step1 srv).createdByUs,
   (prov_step2 srv).createdByUs,
   (prov_step3 srv).createdByUs,
   (prov_step1 srv).cmds ++ (prov_step2 srv).cmds ++ (prov_step3 srv).cmds,
   (prov_step3 srv).server⟩

/-- The creation command of provisioning step 1. -/
def cmdSpk : Cmd := Cmd.loadNullSink spkName spkDesc

/-- The creation command of provisioning step 2. -/
def cmdMic : Cmd := Cmd.loadNullSink micSinkName micSinkDesc

/-- The creation command of provisioning step 3. -/
def cmdRemap : Cmd := Cmd.loadRemapSource micSrcName micMaster micSrcDesc

/- ----------------------------------------------------------------- -/
/- pw-cli node listing and the cleanup lookups (source lines 131-181)  -/
/- ----------------------------------------------------------------- -/

/-- The two lines `pw-cli ls Node` prints for one node that the cleanup
pipeline inspects: the `id <N>, type ...` line and the quoted
`node.name = "<name>"` property line (modelled server output). -/
def nodeBlock (e : Nat × Str) : List Str :=
  [ "\tid ".toList ++ natStr e.1 ++ ", type PipeWire:Interface:Node/3".toList,
    "        node.name = \"".toList ++ e.2 ++ "\"".toList ]

/-- The full `pw-cli ls Node` output, as a list of lines. -/
def nodeListing (nodes : List (Nat × Str)) : List Str :=
  (nodes.map nodeBlock).flatten

/-- The group-separator line GNU grep emits between context groups. -/
def sepLine : Str := "--".toList

/-- Indices of the lines `grep -B k` selects: a line is printed when it
matches or lies at most `k` lines before a matching line. -/
def grepBIdx (k : Nat) (p : Str → Bool) (lines : List Str) : List Nat :=
  (List.range lines.length).filter
    (fun i => (List.range (k + 1)).any
      (fun d => decide (i + d < lines.length) && p (lines.getD (i + d) [])))

/-- Emit the selected lines in order, inserting the `--` separator between
non-contiguous groups, as GNU grep does. -/
def emitSel (lines : List Str) : List Nat → List Str
  | [] => []
  | [i] => [lines.getD i []]
  | i :: j :: rest =>
      (lines.getD i [] :: (if j = i + 1 then [] else [sepLine])) ++ emitSel lines (j :: rest)

/-- `grep -B k <pattern>` over a list of lines. -/
def grepB (k : Nat) (p : Str → Bool) (lines : List Str) : List Str :=
  emitSel lines (grepBIdx k p lines)

/-- Text after the last occurrence of `pat` in `l` (`none` when `pat` does
not occur).  Later occurrences take priority, matching sed's greedy `.*`. -/
def afterLast (pat : Str) : Str → Option Str
  | [] => if pat = [] then some [] else none
  | c :: rest =>
      match afterLast pat rest with
      | some r => some r
      | none => if hasPre pat (c :: rest) then some ((c :: rest).drop pat.length) else none

/-- One line through `sed 's/.*id \([0-9]*\).*/\1/'`: with the greedy `.*`,
the whole line is replaced by the maximal digit run that follows the last
occurrence of `id `; a line without `id ` passes through unchanged. -/
def sedIdExtract (l : Str) : Str :=
  match afterLast "id ".toList l with
  | none => l
  | some r => r.takeWhile Char.isDigit

/-- The node-id lookup pipeline of cleanup (lines 154-155, 163-164, 172-173):
`pw-cli ls Node | grep -B 10 '<pat>' | grep 'id [0-9]*' | tail -1 | sed ...`,
with `run_command_output` collecting the single remaining line (or "").
The second grep's regex `id [0-9]*` accepts any line containing `id `,
because `[0-9]*` may match the empty string. -/
def lookup_node_id (nodes : List (Nat × Str)) (pat : Str) : Str :=
  let sel := grepB 10 (fun l => occursIn pat l) (nodeListing nodes)
  let idLines := sel.filter (fun l => occursIn "id ".toList l)
  match idLines.getLast? with
  | none => []
  | some l => sedIdExtract l

/-- The grep pattern of the speaker-node lookup (line 155): `rtsp_spk`. -/
def patSpk : Str := "rtsp_spk".toList

/-- The grep pattern of the mic-sink-node lookup (line 164): `rtsp_mic_sink`. -/
def patMicSink : Str := "rtsp_mic_sink".toList

/-- The grep pattern of the remap-node lookup (line 173): `rtsp_mic"`,
with the closing double quote included. -/
def patRemap : Str := "rtsp_mic\"".toList

/-- The destroy commands cleanup issues given the three lookup results
(lines 157-178): each non-empty id is destroyed, and the remap id only when
it also differs from the mic-sink id. -/
def destroy_plan (spk mic remap : Str) : List Str :=
  (if spk = [] then [] else [spk]) ++
  (if mic = [] then [] else [mic]) ++
  (if remap ≠ [] ∧ remap ≠ mic then [remap] else [])

/-- The ids cleanup destroys, from the three lookups over the node listing. -/
def cleanup_destroys (nodes : List (Nat × Str)) : List Str :=
  destroy_plan (lookup_node_id nodes patSpk)
               (lookup_node_id nodes patMicSink)
               (lookup_node_id nodes patRemap)

/-- All nodes the `pw-cli ls Node` listing shows: every sink and source. -/
def nodesOf (s : AudioServer) : List (Nat × Str) :=
  s.sinks ++ s.sources

/-- Server effect of `pw-cli destroy <id>`: the node with that (rendered)
id disappears from the listing. -/
def destroy_node (s : AudioServer) (id : Str) : AudioServer :=
  { s with sinks := s.sinks.filter (fun e => decide (natStr e.1 ≠ id)),
           sources := s.sources.filter (fun e => decide (natStr e.1 ≠ id)) }

/- ----------------------------------------------------------------- -/
/- Process table: fork/execvp/_exit(127)/waitpid (lines 100-129, 232-237) -/
/- ----------------------------------------------------------------- -/

/-- Observable status of a child process. -/
inductive PStatus where
  | running
  | zombie (code : Nat)
  | gone
deriving DecidableEq

/-- A spawned child: its argument vector, environment overrides and status. -/
structure ProcEntry where
  argv : List String
  env : List (String × String)
  status : PStatus
deriving DecidableEq

/-- The OS process table visible to the supervisor.  pids are signed
(`pid_t`); freshly forked children get `nextPid`. -/
structure ProcTable where
  nextPid : Int
  procs : List (Int × ProcEntry)
deriving DecidableEq

/-- Status of the child with the given pid, if the table knows it. -/
def statusOf (t : ProcTable) (pid : Int) : Option PStatus :=
  (t.procs.find? (fun e => e.1 == pid)).map (fun e => e.2.status)

/-- Argument vector the child with the given pid was spawned with. -/
def argvOf (t : ProcTable) (pid : Int) : Option (List String) :=
  (t.procs.find? (fun e => e.1 == pid)).map (fun e => e.2.argv)

/-- Environment overrides the child with the given pid was spawned with. -/
def envOf (t : ProcTable) (pid : Int) : Option (List (String × String)) :=
  (t.procs.find? (fun e => e.1 == pid)).map (fun e => e.2.env)

/-- Overwrite the status of one pid. -/
def setStatus (t : ProcTable) (pid : Int) (st : PStatus) : ProcTable :=
  { t with procs := t.procs.map (fun e =>
      if e.1 = pid then (e.1, { e.2 with status := st }) else e) }

/-- `spawn_process` (lines 100-129): fork, set env overrides in the child,
exec the binary.  The parent returns the fresh pid immediately in every
case; when exec fails the child has already exited with `_exit(127)`,
which is the only trace of the failure. -/
def spawn_process (t : ProcTable) (args : List String)
    (env : List (String × String)) (execOk : Bool) : Int × ProcTable :=
  (t.nextPid,
   { nextPid := t.nextPid + 1,
     procs := t.procs ++
       [(t.nextPid, ⟨args, env, if execOk then .running else .zombie 127⟩)] })

/-- `waitpid(pid, &status, WNOHANG)`: 0 while the child runs, the pid when
it reports a termination (which reaps it), -1 for an unknown or already
reaped pid. -/
def waitpid_wnohang (t : ProcTable) (pid : Int) : Int × ProcTable :=
  match statusOf t pid with
  | some .running => (0, t)
  | some (.zombie _) => (pid, setStatus t pid .gone)
  | some .gone => (-1, t)
  | none => (-1, t)

/-- `check_process_alive` (lines 232-237): reject non-positive handles, then
one non-blocking wait; alive exactly when the wait reports no change. -/
def check_process_alive (t : ProcTable) (pid : Int) : Bool × ProcTable :=
  if pid ≤ 0 then (false, t)
  else
    let r := waitpid_wnohang t pid
    (r.1 == 0, r.2)

/-- Effect of `kill(pid, SIGTERM)` on a tracked running child: it dies
(termination by signal; 143 = 128 + SIGTERM). -/
def term_signal (t : ProcTable) (pid : Int) : ProcTable :=
  { t with procs := t.procs.map (fun e =>
      if e.1 = pid ∧ e.2.status = .running
      then (e.1, { e.2 with status := .zombie 143 }) else e) }

/-- Signal every tracked positive pid, as cleanup (lines 135-139) and the
restart branch (lines 400-402) do. -/
def signal_all (t : ProcTable) (pids : List Int) : ProcTable :=
  pids.foldl (fun acc pid => if 0 < pid then term_signal acc pid else acc) t

/-- Reap every tracked positive pid non-blockingly, as cleanup
(lines 144-149) does. -/
def reap_all (t : ProcTable) (pids : List Int) : ProcTable :=
  pids.foldl (fun acc pid => if 0 < pid then (waitpid_wnohang acc pid).2 else acc) t

/- ----------------------------------------------------------------- -/
/- Pipeline argv templates, the session, and the interactive loop      -/
/- ----------------------------------------------------------------- -/

/-- A single-quote character (used inside the drawtext filter argument). -/
def sq : String := (Char.ofNat 39).toString

/-- The drawtext video-filter argument of the initial speaker pipeline
(line 335): overlays the local time on the looped still image. -/
def drawtextArg : String :=
  "drawtext=text=" ++ sq ++ "%\x7blocaltime\x7d" ++ sq ++
  ":fontcolor=white:fontsize=28:x=20:y=20:box=1:boxcolor=0x00000080"

/-- argv of the mic pipeline at initial spawn (lines 318-326). -/
def mic_args_initial (micUrl : String) : List String :=
  ["ffmpeg", "-hide_banner", "-loglevel", "warning",
   "-rtsp_transport", "tcp",
   "-i", micUrl,
   "-map", "0:a",
   "-f", "pulse",
   "-ac", "2", "-ar", "48000",
   "RTSP_Mic_Input"]

/-- Environment override of the mic pipeline (line 326): render into the
mic sink. -/
def mic_env : List (String × String) := [("PULSE_SINK", "rtsp_mic_sink")]

/-- argv of the speaker pipeline at initial spawn (lines 330-342). -/
def spk_args_initial (imagePath spkUrl : String) : List String :=
  ["ffmpeg", "-hide_banner", "-loglevel", "warning",
   "-re",
   "-loop", "1", "-framerate", "60", "-i", imagePath,
   "-f", "pulse", "-thread_queue_size", "64", "-ac", "2", "-i", "rtsp_spk.monitor",
   "-vf", drawtextArg,
   "-map", "0:v", "-map", "1:a",
   "-c:v", "libx264", "-tune", "stillimage", "-preset", "ultrafast",
   "-pix_fmt", "yuv420p", "-g", "50", "-r", "1",
   "-c:a", "aac", "-b:a", "64k", "-ac", "2", "-ar", "44100",
   "-f", "rtsp", "-rtsp_transport", "tcp",
   spkUrl]

/-- argv of the mic pipeline in the restart branch (lines 407-415). -/
def mic_args_restart (micUrl : String) : List String :=
  ["ffmpeg", "-hide_banner", "-loglevel", "warning",
   "-rtsp_transport", "tcp",
   "-i", micUrl,
   "-map", "0:a",
   "-f", "pulse",
   "-ac", "2", "-ar", "48000",
   "RTSP_Mic_Input"]

/-- argv of the speaker pipeline in the restart branch (lines 419-431):
note the `-framerate 1` and the absence of the `-vf` drawtext filter. -/
def spk_args_restart (imagePath spkUrl : String) : List String :=
  ["ffmpeg", "-hide_banner", "-loglevel", "warning",
   "-re",
   "-loop", "1", "-framerate", "1", "-i", imagePath,
   "-f", "pulse", "-thread_queue_size", "64", "-ac", "2",
   "-i", "rtsp_spk.monitor",
   "-map", "0:v", "-map", "1:a",
   "-c:v", "libx264", "-tune", "stillimage", "-preset", "ultrafast",
   "-pix_fmt", "yuv420p", "-g", "50", "-r", "1",
   "-c:a", "aac", "-b:a", "64k", "-ac", "2", "-ar", "44100",
   "-f", "rtsp", "-rtsp_transport", "tcp",
   spkUrl]

/-- Immutable session configuration: the two RTSP URLs (environment or
defaults, lines 255-256) and the discovered still-image path (lines 259-272). -/
structure Config where
  micUrl : String
  spkUrl : String
  imagePath : String
deriving DecidableEq

/-- Mutable supervisor state: the OS process table, the audio-server state,
the tracked child pids and the two pipeline pid variables, the shutdown
flag set by the signal handler, and whether the external pipeline binary
can be executed (the environment fact `execvp` depends on). -/
structure World where
  table : ProcTable
  server : AudioServer
  child_pids : List Int
  micPid : Int
  spkPid : Int
  running : Bool
  execOk : Bool
deriving DecidableEq

/-- The two initial spawns of main (lines 317-343): mic pipeline with the
PULSE_SINK override, then speaker pipeline; both pids are pushed onto
`child_pids`. -/
def initial_spawn (cfg : Config) (w : World) : World :=
  let m := spawn_process w.table (mic_args_initial cfg.micUrl) mic_env w.execOk
  let s := spawn_process m.2 (spk_args_initial cfg.imagePath cfg.spkUrl) [] w.execOk
  { w with table := s.2, micPid := m.1, spkPid := s.1,
           child_pids := w.child_pids ++ [m.1, s.1] }

/-- The restart branch of the dispatcher (lines 393-439): SIGTERM every
tracked pid, wait the 500ms grace period, clear the pid list, then spawn
the two pipelines again and track the two new pids.  It issues no
audio-server command. -/
def restart_pipelines (cfg : Config) (w : World) : World × List Cmd :=
  let t0 := signal_all w.table w.child_pids
  let m := spawn_process t0 (mic_args_restart cfg.micUrl) mic_env w.execOk
  let s := spawn_process m.2 (spk_args_restart cfg.imagePath cfg.spkUrl) [] w.execOk
  ({ w with table := s.2, micPid := m.1, spkPid := s.1,
            child_pids := [m.1, s.1] }, [])

/-- The status branch of the dispatcher (lines 366-391): print liveness of
the two pipeline pids via `check_process_alive` (which may reap them). -/
def status_action (w : World) : World :=
  let r1 := check_process_alive w.table w.micPid
  let r2 := check_process_alive r1.2 w.spkPid
  { w with table := r2.2 }

/-- The signal handler (lines 183-185): its whole body is `running = false`. -/
def signal_handler (w : World) : World :=
  { w with running := false }

/-- One dispatch of the interactive loop on an optional keystroke
(lines 356-454).  `q` clears the run flag, `s` shows status, `r` restarts
the pipelines, `v` prints the sink listing (a pure read), anything else is
ignored.  The returned commands are the audio-server mutations issued. -/
def loop_iter (cfg : Config) (w : World) (key : Option Char) : World × List Cmd :=
  match key with
  | some c =>
      if c = 'q' ∨ c = 'Q' then ({ w with running := false }, [])
      else if c = 's' ∨ c = 'S' then (status_action w, [])
      else if c = 'r' ∨ c = 'R' then restart_pipelines cfg w
      else (w, [])
  | none => (w, [])

/-- The supervisor loop (lines 356-463): while the run flag is set, read at
most one keystroke and dispatch on it.  Fuel bounds the number of
iterations; the flag is polled once, at the top of each iteration. -/
def main_loop (cfg : Config) : Nat → World → List (Option Char) → World × List Cmd
  | 0, w, _ => (w, [])
  | fuel + 1, w, keys =>
      if w.running then
        let r := loop_iter cfg w (keys.headD none)
        let rest := main_loop cfg fuel r.1 keys.tail
        (rest.1, r.2 ++ rest.2)
      else (w, [])

/-- `cleanup` (lines 131-181): SIGTERM every tracked pid, wait the grace
period, reap non-blockingly, then look up and destroy the three endpoint
nodes by id (each lookup best-effort, remap guarded against the mic id). -/
def cleanup (w : World) : World × List Cmd :=
  let t1 := signal_all w.table w.child_pids
  let t2 := reap_all t1 w.child_pids
  let ids := cleanup_destroys (nodesOf w.server)
  let srv := ids.foldl destroy_node w.server
  ({ w with table := t2, server := srv }, ids.map Cmd.destroyNode)

/- ----------------------------------------------------------------- -/
/- Concrete states used to instantiate the theorems                    -/
/- ----------------------------------------------------------------- -/

/-- A fresh audio server with no sinks and no sources. -/
def srvEmpty : AudioServer := ⟨1, [], []⟩

/-- A node listing whose only node name has the speaker name as a proper
prefix of its own name. -/
def nodesC2 : List (Nat × Str) := [(60, "rtsp_spk_extra".toList)]

/-- A sink table containing the mic-sink name (which the mic-facing source
name is a proper prefix of). -/
def entC2 : List (Nat × Str) := [(5, "rtsp_mic_sink".toList)]

/-- An empty process table whose first fork will return pid 1. -/
def tblC3 : ProcTable := ⟨1, []⟩

/-- A process table with one running, one exited and one reaped child. -/
def tblC4 : ProcTable :=
  ⟨4, [(1, ⟨[], [], .running⟩), (2, ⟨[], [], .zombie 127⟩), (3, ⟨[], [], .gone⟩)]⟩

/-- A server on which the speaker sink already exists before provisioning. -/
def srvC5 : AudioServer := ⟨10, [(3, "rtsp_spk".toList)], []⟩

/-- A sample configuration. -/
def cfgC6 : Config := ⟨"rtsp://h/mic", "rtsp://h/spk", "img.png"⟩

/-- A session with one tracked running pipeline process. -/
def wldC6 : World :=
  ⟨⟨5, [(4, ⟨["ffmpeg"], [], .running⟩)]⟩, ⟨1, [], []⟩, [4], 4, 0, true, true⟩

/-- A server on which the speaker sink pre-exists (id 42), so provisioning
confirms it rather than creating it. -/
def srvC7 : AudioServer := ⟨100, [(42, "rtsp_spk".toList)], []⟩

/-- The session state at loop exit for `srvC7`: endpoints provisioned, no
pipeline processes left to reap. -/
def wldC7 : World := ⟨⟨1, []⟩, (provision srvC7).server, [], 0, 0, false, true⟩

/-- Two sessions sharing one server state but with different process state. -/
def wldC7a : World := ⟨⟨1, []⟩, (provision srvC7).server, [], 0, 0, false, true⟩

/-- See `wldC7a`. -/
def wldC7b : World :=
  ⟨⟨9, [(7, ⟨["ffmpeg"], [], .running⟩)]⟩, (provision srvC7).server, [7], 7, 0, false, false⟩

/-- Proposition form of `hasPre`: `p` is a leading segment of `s`. -/
def PreP (p s : Str) : Prop := ∃ t, s = p ++ t

/-- Proposition form of `occursIn`: `p` occurs contiguously inside `s`. -/
def OccP (p s : Str) : Prop := ∃ a b, s = a ++ (p ++ b)

/- ----------------------------------------------------------------- -/
/- Helper lemmas on substring occurrence                               -/
/- ----------------------------------------------------------------- -/

theorem hasPre_iff (p : Str) : ∀ s, hasPre p s = true ↔ PreP p s := by
  induction p with
  | nil => intro s; simp [hasPre, PreP]
  | cons x ps ih =>
    intro s
    cases s with
    | nil =>
      simp [hasPre, PreP]
    | cons y ss =>
      simp only [hasPre, Bool.and_eq_true, beq_iff_eq, ih, PreP]
      constructor
      · rintro ⟨rfl, t, rfl⟩
        exact ⟨t, by simp⟩
      · rintro ⟨t, h⟩
        rw [List.cons_append] at h
        injection h with h1 h2
        exact ⟨h1.symm, t, h2⟩

theorem occursIn_iff (p : Str) : ∀ s, occursIn p s = true ↔ OccP p s := by
  intro s
  induction s with
  | nil =>
    simp only [occursIn, List.isEmpty_iff, OccP]
    constructor
    · rintro rfl; exact ⟨[], [], rfl⟩
    · rintro ⟨a, b, h⟩
      rcases List.append_eq_nil.mp h.symm with ⟨-, h2⟩
      exact (List.append_eq_nil.mp h2).1
  | cons x ss ih =>
    simp only [occursIn, Bool.or_eq_true, hasPre_iff, ih]
    constructor
    · rintro (⟨t, ht⟩ | ⟨a, b, rfl⟩)
      · exact ⟨[], t, by simpa using ht⟩
      · exact ⟨x :: a, b, rfl⟩
    · rintro ⟨a, b, h⟩
      cases a with
      | nil => exact Or.inl ⟨b, by simpa using h⟩
      | cons y a2 =>
        rw [List.cons_append] at h
        injection h with h1 h2
        exact Or.inr ⟨a2, b, h2⟩

theorem occP_of_preP {p s : Str} (h : PreP p s) : OccP p s := by
  rcases h with ⟨t, rfl⟩
  exact ⟨[], t, rfl⟩

theorem occP_cons {p s : Str} (x : Char) (h : OccP p s) : OccP p (x :: s) := by
  rcases h with ⟨a, b, rfl⟩
  exact ⟨x :: a, b, rfl⟩

theorem occP_cons_elim {p s : Str} {x : Char} (h : OccP p (x :: s)) :
    PreP p (x :: s) ∨ OccP p s := by
  rcases h with ⟨a, b, hab⟩
  cases a with
  | nil => exact Or.inl ⟨b, by simpa using hab⟩
  | cons y a2 =>
    rw [List.cons_append] at hab
    injection hab with h1 h2
    exact Or.inr ⟨a2, b, h2⟩

theorem preP_mem {p s : Str} {x : Char} (h : PreP p s) (hx : x ∈ p) : x ∈ s := by
  rcases h with ⟨t, rfl⟩
  exact List.mem_append_left t hx

theorem occP_mem {p s : Str} {x : Char} (h : OccP p s) (hx : x ∈ p) : x ∈ s := by
  rcases h with ⟨a, b, rfl⟩
  exact List.mem_append_right a (List.mem_append_left b hx)

theorem preP_split {p : Str} {c : Char} (hc : c ∉ p) :
    ∀ {a b : Str}, PreP p (a ++ c :: b) → PreP p a := by
  induction p with
  | nil => intro a b _; exact ⟨a, rfl⟩
  | cons x ps ih =>
    intro a b h
    rcases h with ⟨t, ht⟩
    cases a with
    | nil =>
      rw [List.nil_append, List.cons_append] at ht
      injection ht with h1 h2
      exact absurd (h1 ▸ List.mem_cons_self x ps) hc
    | cons y a2 =>
      rw [List.cons_append, List.cons_append] at ht
      injection ht with h1 h2
      have hc2 : c ∉ ps := fun hm => hc (List.mem_cons_of_mem x hm)
      rcases ih hc2 ⟨t, h2⟩ with ⟨t2, ht2⟩
      exact ⟨t2, by rw [List.cons_append, h1, ht2]⟩

theorem occP_split {p : Str} {c : Char} (hc : c ∉ p) :
    ∀ (a : Str) {b : Str}, OccP p (a ++ c :: b) → OccP p a ∨ OccP p b := by
  intro a
  induction a with
  | nil =>
    intro b h
    rw [List.nil_append] at h
    rcases occP_cons_elim h with hp | ho
    · cases p with
      | nil => exact Or.inl ⟨[], [], rfl⟩
      | cons x ps =>
        rcases hp with ⟨t, ht⟩
        rw [List.cons_append] at ht
        injection ht with h1 h2
        exact absurd (h1 ▸ List.mem_cons_self x ps) hc
    · exact Or.inr ho
  | cons d a2 ih =>
    intro b h
    rw [List.cons_append] at h
    rcases occP_cons_elim h with hp | ho
    · left
      exact occP_of_preP (preP_split hc ⟨_, (by simpa [List.cons_append] using hp.choose_spec)⟩)
    · rcases ih ho with h1 | h2
      · exact Or.inl (occP_cons d h1)
      · exact Or.inr h2

theorem occP_interc_elim {p : Str} {c : Char} (hc : c ∉ p) (hp : p ≠ []) :
    ∀ rows, OccP p (interc c rows) → ∃ r ∈ rows, OccP p r := by
  intro rows
  induction rows with
  | nil =>
    intro h
    rcases h with ⟨a, b, hab⟩
    rcases List.append_eq_nil.mp hab.symm with ⟨-, h2⟩
    exact absurd (List.append_eq_nil.mp h2).1 hp
  | cons r rs ih =>
    intro h
    cases rs with
    | nil => exact ⟨r, List.mem_cons_self r [], by simpa [interc] using h⟩
    | cons r2 rs2 =>
      rw [show interc c (r :: r2 :: rs2) = r ++ c :: interc c (r2 :: rs2) from rfl] at h
      rcases occP_split hc r h with h1 | h2
      · exact ⟨r, List.mem_cons_self r _, h1⟩
      · rcases ih h2 with ⟨r3, hm, ho⟩
        exact ⟨r3, List.mem_cons_of_mem r hm, ho⟩

theorem occP_interc_intro {p : Str} {c : Char} :
    ∀ rows r, r ∈ rows → OccP p r → OccP p (interc c rows) := by
  intro rows
  induction rows with
  | nil => intro r hm; exact absurd hm (List.not_mem_nil r)
  | cons r0 rs ih =>
    intro r hm ho
    rcases List.mem_cons.mp hm with rfl | hm2
    · cases rs with
      | nil => simpa [interc] using ho
      | cons r2 rs2 =>
        rcases ho with ⟨a, b, rfl⟩
        exact ⟨a, b ++ c :: interc c (r2 :: rs2), by simp [interc]⟩
    · cases rs with
      | nil => exact absurd hm2 (List.not_mem_nil r)
      | cons r2 rs2 =>
        rcases ih r hm2 ho with ⟨a, b, hab⟩
        exact ⟨r0 ++ c :: a, b, by simp [interc, hab]⟩

theorem preP_field {c : Char} :
    ∀ (g n I : Str), PreP (n ++ [c]) (g ++ c :: I) → c ∉ n → c ∉ g → n = g := by
  intro g
  induction g with
  | nil =>
    intro n I h hn _
    cases n with
    | nil => rfl
    | cons x n2 =>
      rcases h with ⟨t, ht⟩
      simp only [List.nil_append, List.cons_append, List.append_assoc] at ht
      injection ht with h1 h2
      exact absurd (by rw [h1]; exact List.mem_cons_self x n2) hn
  | cons y g2 ihg =>
    intro n I h hn hg
    cases n with
    | nil =>
      rcases h with ⟨t, ht⟩
      simp only [List.nil_append, List.cons_append, List.singleton_append] at ht
      injection ht with h1 h2
      exact absurd (by rw [← h1]; exact List.mem_cons_self y g2) hg
    | cons x n2 =>
      rcases h with ⟨t, ht⟩
      simp only [List.cons_append, List.append_assoc, List.singleton_append] at ht
      injection ht with h1 h2
      have hn2 : c ∉ n2 := fun hm => hn (List.mem_cons_of_mem x hm)
      have hg2 : c ∉ g2 := fun hm => hg (List.mem_cons_of_mem y hm)
      have heq : n2 = g2 :=
        ihg n2 I ⟨t, by simpa [List.append_assoc] using h2⟩ hn2 hg2
      rw [h1, heq]

theorem preP_interc_field {c : Char} {n g : Str} {gs : List Str}
    (h : PreP (n ++ [c]) (interc c (g :: gs))) (hn : c ∉ n) (hg : c ∉ g) :
    n = g ∧ gs ≠ [] := by
  cases gs with
  | nil =>
    have : c ∈ g := preP_mem (by simpa [interc] using h)
      (List.mem_append_right n (List.mem_singleton.mpr rfl))
    exact absurd this hg
  | cons g2 gs2 =>
    have heq : n = g :=
      preP_field g n (interc c (g2 :: gs2)) (by simpa [interc] using h) hn hg
    exact ⟨heq, by simp⟩

theorem occP_head_skip {c : Char} {q l : Str} :
    ∀ f, OccP (c :: q) (f ++ l) → c ∉ f → OccP (c :: q) l := by
  intro f
  induction f with
  | nil => intro h _; simpa using h
  | cons d f2 ih =>
    intro h hf
    rw [List.cons_append] at h
    rcases occP_cons_elim h with hp | ho
    · rcases hp with ⟨t, ht⟩
      rw [List.cons_append] at ht
      injection ht with h1 h2
      exact absurd (by rw [h1]; exact List.mem_cons_self c f2) hf
    · exact ih ho (fun hm => hf (List.mem_cons_of_mem d hm))

theorem fieldOf_interc {c : Char} :
    ∀ (fields : List Str) (n : Str), (∀ f ∈ fields, c ∉ f) → c ∉ n →
      OccP (c :: (n ++ [c])) (interc c fields) → n ∈ fields.tail := by
  intro fields
  induction fields with
  | nil =>
    intro n _ _ h
    rcases h with ⟨a, b, hab⟩
    simp [interc] at hab
  | cons f fs ih =>
    intro n hfields hn h
    cases fs with
    | nil =>
      have : c ∈ f := occP_mem (by simpa [interc] using h) (List.mem_cons_self c _)
      exact absurd this (hfields f (List.mem_cons_self f []))
    | cons f2 fs2 =>
      rw [show interc c (f :: f2 :: fs2) = f ++ c :: interc c (f2 :: fs2) from rfl] at h
      have h2 := occP_head_skip f h (hfields f (List.mem_cons_self f _))
      rcases occP_cons_elim h2 with hp | ho
      · rcases hp with ⟨t, ht⟩
        rw [List.cons_append] at ht
        injection ht with _ hI
        have hpre : PreP (n ++ [c]) (interc c (f2 :: fs2)) := ⟨t, hI⟩
        have := preP_interc_field hpre hn (hfields f2 (List.mem_cons_of_mem f (List.mem_cons_self f2 _)))
        rw [this.1]
        exact List.mem_cons_self f2 fs2
      · have := ih n (fun g hg => hfields g (List.mem_cons_of_mem f hg)) hn ho
        exact List.mem_cons_of_mem f2 (by simpa using this)

theorem digitChar_isDigit {d : Nat} (h : d < 10) : (Nat.digitChar d).isDigit = true := by
  interval_cases d <;> decide

theorem natStrAux_digit : ∀ fuel n, ∀ c ∈ natStrAux fuel n, c.isDigit = true := by
  intro fuel
  induction fuel with
  | zero => intro n c hc; simp [natStrAux] at hc
  | succ f ih =>
    intro n c hc
    cases n with
    | zero => simp [natStrAux] at hc
    | succ m =>
      rw [natStrAux] at hc
      rcases List.mem_append.mp hc with h1 | h2
      · exact ih _ c h1
      · rw [List.mem_singleton] at h2
        rw [h2]
        exact digitChar_isDigit (Nat.mod_lt _ (by norm_num))

theorem natStr_digit {n : Nat} {c : Char} (hc : c ∈ natStr n) : c.isDigit = true := by
  unfold natStr at hc
  by_cases h : n = 0
  · rw [if_pos h] at hc
    rw [List.mem_singleton] at hc
    rw [hc]
    decide
  · rw [if_neg h] at hc
    exact natStrAux_digit n n c hc

theorem natStr_not_tab (n : Nat) : tabC ∉ natStr n := by
  intro h
  have := natStr_digit h
  exact absurd this (by decide)

theorem occP_shortRow (e : Nat × Str) :
    OccP (tabC :: (e.2 ++ [tabC])) (shortRow e) := by
  refine ⟨natStr e.1, interc tabC [driverField, specField, stateField], ?_⟩
  simp [shortRow, interc, List.append_assoc]

theorem short_exists_of_mem {entries : List (Nat × Str)} {name : Str}
    (h : name ∈ entries.map Prod.snd) :
    occursIn (tabC :: (name ++ [tabC])) (shortListing entries) = true := by
  rcases List.mem_map.mp h with ⟨e, he, rfl⟩
  rw [occursIn_iff]
  show OccP _ (interc nlC (entries.map shortRow))
  exact occP_interc_intro _ (shortRow e) (List.mem_map_of_mem shortRow he) (occP_shortRow e)

theorem short_exists_iff_mem (entries : List (Nat × Str)) (name : Str)
    (h1 : tabC ∉ name) (h2 : nlC ∉ name)
    (h3 : ∀ e ∈ entries, tabC ∉ e.2)
    (h4 : name ≠ driverField) (h5 : name ≠ specField) (h6 : name ≠ stateField) :
    (occursIn (tabC :: (name ++ [tabC])) (shortListing entries) = true) ↔
      name ∈ entries.map Prod.snd := by
  constructor
  · intro h
    rw [occursIn_iff] at h
    have hnl : nlC ∉ tabC :: (name ++ [tabC]) := by
      intro hmem
      rcases List.mem_cons.mp hmem with hx | hx
      · exact absurd hx (by decide)
      · rcases List.mem_append.mp hx with hy | hy
        · exact h2 hy
        · rw [List.mem_singleton] at hy
          exact absurd hy (by decide)
    have hrow := occP_interc_elim hnl (by simp) (entries.map shortRow)
      (by simpa [shortListing] using h)
    rcases hrow with ⟨r, hr, hocc⟩
    rcases List.mem_map.mp hr with ⟨e, he, rfl⟩
    have htab : ∀ f ∈ [natStr e.1, e.2, driverField, specField, stateField], tabC ∉ f := by
      intro f hf
      simp only [List.mem_cons, List.not_mem_nil, or_false] at hf
      rcases hf with rfl | rfl | rfl | rfl | rfl
      · exact natStr_not_tab e.1
      · exact h3 e he
      · decide
      · decide
      · decide
    have hfield := fieldOf_interc [natStr e.1, e.2, driverField, specField, stateField]
      name htab h1 (by simpa [shortRow] using hocc)
    simp only [List.tail_cons, List.mem_cons, List.not_mem_nil, or_false] at hfield
    rcases hfield with hx | hx | hx | hx
    · rw [hx]
      exact List.mem_map_of_mem Prod.snd he
    · exact absurd hx h4
    · exact absurd hx h5
    · exact absurd hx h6
  · exact fun h => short_exists_of_mem h

/- ----------------------------------------------------------------- -/
/- Helper lemmas on the process table                                  -/
/- ----------------------------------------------------------------- -/

theorem find?_append_none {α : Type} (p : α → Bool) {l1 : List α} (l2 : List α)
    (h : ∀ e ∈ l1, p e = false) :
    List.find? p (l1 ++ l2) = List.find? p l2 := by
  induction l1 with
  | nil => rfl
  | cons x xs ih =>
    rw [List.cons_append, List.find?_cons_of_neg _ (by simp [h x (List.mem_cons_self x xs)])]
    exact ih (fun e he => h e (List.mem_cons_of_mem x he))

theorem term_signal_fst (t : ProcTable) (pid : Int) :
    (term_signal t pid).procs.map Prod.fst = t.procs.map Prod.fst := by
  unfold term_signal
  rw [List.map_map]
  apply List.map_congr_left
  intro e _
  by_cases h : e.1 = pid ∧ e.2.status = .running <;> simp [h]

theorem term_signal_nextPid (t : ProcTable) (pid : Int) :
    (term_signal t pid).nextPid = t.nextPid := rfl

theorem signal_all_nextPid (pids : List Int) :
    ∀ t, (signal_all t pids).nextPid = t.nextPid := by
  induction pids with
  | nil => intro t; rfl
  | cons p ps ih =>
    intro t
    show (signal_all (if 0 < p then term_signal t p else t) ps).nextPid = t.nextPid
    rw [ih]
    by_cases h : 0 < p <;> simp [h, term_signal_nextPid]

theorem signal_all_fst (pids : List Int) :
    ∀ t, (signal_all t pids).procs.map Prod.fst = t.procs.map Prod.fst := by
  induction pids with
  | nil => intro t; rfl
  | cons p ps ih =>
    intro t
    show (signal_all (if 0 < p then term_signal t p else t) ps).procs.map Prod.fst = _
    rw [ih]
    by_cases h : 0 < p <;> simp [h, term_signal_fst]

/- ----------------------------------------------------------------- -/
/- Helper lemmas on the provisioning steps                             -/
/- ----------------------------------------------------------------- -/

/- ----------------------------------------------------------------- -/
/- Helper lemmas on the destroy plan                                   -/
/- ----------------------------------------------------------------- -/

theorem count_nil_singleton {x : Str} (hx : x ≠ []) :
    List.count ([] : Str) [x] = 0 := by
  have hbeq : (([] : Str) == x) = false := by
    rw [beq_eq_false_iff_ne]
    exact fun he => hx he.symm
  simp [List.count_cons, hbeq]
  exact hx

theorem destroy_plan_count_nil (s m r : Str) : (destroy_plan s m r).count [] = 0 := by
  unfold destroy_plan
  rw [List.count_append, List.count_append]
  have c1 : List.count ([] : Str) (if s = [] then [] else [s]) = 0 := by
    by_cases hs : s = []
    · rw [if_pos hs]; rfl
    · rw [if_neg hs]; exact count_nil_singleton hs
  have c2 : List.count ([] : Str) (if m = [] then [] else [m]) = 0 := by
    by_cases hm : m = []
    · rw [if_pos hm]; rfl
    · rw [if_neg hm]; exact count_nil_singleton hm
  have c3 : List.count ([] : Str) (if r ≠ [] ∧ r ≠ m then [r] else []) = 0 := by
    by_cases hg : r ≠ [] ∧ r ≠ m
    · rw [if_pos hg]; exact count_nil_singleton hg.1
    · rw [if_neg hg]; rfl
  rw [c1, c2, c3]

theorem destroy_plan_mem_first {s : Str} (m r : Str) (h : s ≠ []) :
    s ∈ destroy_plan s m r := by
  unfold destroy_plan
  refine List.mem_append_left _ (List.mem_append_left _ ?_)
  rw [if_neg h]
  exact List.mem_singleton_self s

theorem destroy_plan_mem_second (s : Str) {m : Str} (r : Str) (h : m ≠ []) :
    m ∈ destroy_plan s m r := by
  unfold destroy_plan
  refine List.mem_append_left _ (List.mem_append_right _ ?_)
  rw [if_neg h]
  exact List.mem_singleton_self m

theorem destroy_plan_mem_third (s m : Str) {r : Str} (h1 : r ≠ []) (h2 : r ≠ m) :
    r ∈ destroy_plan s m r := by
  unfold destroy_plan
  refine List.mem_append_right _ ?_
  rw [if_pos ⟨h1, h2⟩]
  exact List.mem_singleton_self r

theorem spawn_twice_lookup (t : ProcTable) (a1 a2 : List String)
    (e1 e2 : List (String × String)) (ok : Bool)
    (hf : ∀ e ∈ t.procs, e.1 ≠ t.nextPid ∧ e.1 ≠ t.nextPid + 1) :
    argvOf (spawn_process (spawn_process t a1 e1 ok).2 a2 e2 ok).2 t.nextPid = some a1 ∧
    envOf (spawn_process (spawn_process t a1 e1 ok).2 a2 e2 ok).2 t.nextPid = some e1 ∧
    argvOf (spawn_process (spawn_process t a1 e1 ok).2 a2 e2 ok).2 (t.nextPid + 1) = some a2 := by
  have hbeq1 : ∀ e ∈ t.procs, ((fun e : Int × ProcEntry => e.1 == t.nextPid) e) = false := by
    intro e he
    simp only [beq_eq_false_iff_ne, ne_eq]
    exact (hf e he).1
  have hbeq2 : ∀ e ∈ t.procs,
      ((fun e : Int × ProcEntry => e.1 == t.nextPid + 1) e) = false := by
    intro e he
    simp only [beq_eq_false_iff_ne, ne_eq]
    exact (hf e he).2
  have hne : ((t.nextPid == t.nextPid + 1)) = false := by
    rw [beq_eq_false_iff_ne]
    omega
  refine ⟨?_, ?_, ?_⟩
  · simp only [argvOf, spawn_process]
    rw [List.append_assoc, find?_append_none _ _ hbeq1]
    simp [List.find?]
  · simp only [envOf, spawn_process]
    rw [List.append_assoc, find?_append_none _ _ hbeq1]
    simp [List.find?]
  · simp only [argvOf, spawn_process]
    rw [List.append_assoc, find?_append_none _ _ hbeq2, List.singleton_append]
    rw [List.find?_cons_of_neg _ (by simp [hne])]
    simp [List.find?]

theorem ensure_sink_cmds_sub (srv : AudioServer) (name desc : Str) :
    List.Sublist (ensure_sink srv name desc).cmds [Cmd.loadNullSink name desc] := by
  unfold ensure_sink
  split
  · exact List.nil_sublist _
  · exact List.Sublist.refl _

theorem ensure_remap_cmds_sub (srv : AudioServer) (name master desc : Str) :
    List.Sublist (ensure_remap_source srv name master desc).cmds
      [Cmd.loadRemapSource name master desc] := by
  unfold ensure_remap_source
  split
  · exact List.nil_sublist _
  · exact List.Sublist.refl _

theorem ensure_sink_cmds_mem {srv : AudioServer} {name desc : Str} {y : Cmd}
    (h : y ∈ (ensure_sink srv name desc).cmds) : y = Cmd.loadNullSink name desc := by
  unfold ensure_sink at h
  split at h
  · simp at h
  · simpa using h

theorem ensure_remap_cmds_mem {srv : AudioServer} {name master desc : Str} {y : Cmd}
    (h : y ∈ (ensure_remap_source srv name master desc).cmds) :
    y = Cmd.loadRemapSource name master desc := by
  unfold ensure_remap_source at h
  split at h
  · simp at h
  · simpa using h

theorem ensure_sink_cmds_iff (srv : AudioServer) (name desc : Str) :
    Cmd.loadNullSink name desc ∈ (ensure_sink srv name desc).cmds ↔
      sink_exists srv.sinks name = false := by
  unfold ensure_sink
  cases hx : sink_exists srv.sinks name <;> simp [hx]

theorem ensure_remap_cmds_iff (srv : AudioServer) (name master desc : Str) :
    Cmd.loadRemapSource name master desc ∈ (ensure_remap_source srv name master desc).cmds ↔
      source_exists srv.sources name = false := by
  unfold ensure_remap_source
  cases hx : source_exists srv.sources name <;> simp [hx]

theorem ensure_sink_name_mem (srv : AudioServer) (name desc : Str)
    (hsk : ∀ e ∈ srv.sinks, tabC ∉ e.2) (h1 : tabC ∉ name) (h2 : nlC ∉ name)
    (h4 : name ≠ driverField) (h5 : name ≠ specField) (h6 : name ≠ stateField) :
    name ∈ (ensure_sink srv name desc).server.sinks.map Prod.snd := by
  unfold ensure_sink
  cases hx : sink_exists srv.sinks name
  · rw [if_neg (by simp)]
    simp [load_null_sink]
  · rw [if_pos rfl]
    exact (short_exists_iff_mem srv.sinks name h1 h2 hsk h4 h5 h6).mp hx

theorem ensure_remap_name_mem (srv : AudioServer) (name master desc : Str)
    (hsr : ∀ e ∈ srv.sources, tabC ∉ e.2) (h1 : tabC ∉ name) (h2 : nlC ∉ name)
    (h4 : name ≠ driverField) (h5 : name ≠ specField) (h6 : name ≠ stateField) :
    name ∈ (ensure_remap_source srv name master desc).server.sources.map Prod.snd := by
  unfold ensure_remap_source
  cases hx : source_exists srv.sources name
  · rw [if_neg (by simp)]
    simp [load_remap_source]
  · rw [if_pos rfl]
    exact (short_exists_iff_mem srv.sources name h1 h2 hsr h4 h5 h6).mp hx

theorem ensure_sink_sinks_super (srv : AudioServer) (name desc : Str) {x : Str}
    (h : x ∈ srv.sinks.map Prod.snd) :
    x ∈ (ensure_sink srv name desc).server.sinks.map Prod.snd := by
  unfold ensure_sink
  split
  · exact h
  · simp only [load_null_sink, List.map_append, List.mem_append]
    exact Or.inl h

theorem ensure_remap_sinks (srv : AudioServer) (name master desc : Str) :
    (ensure_remap_source srv name master desc).server.sinks = srv.sinks := by
  unfold ensure_remap_source
  split <;> rfl

theorem ensure_sink_good_sinks (srv : AudioServer) (name desc : Str)
    (hsk : ∀ e ∈ srv.sinks, tabC ∉ e.2) (h1 : tabC ∉ name) :
    ∀ e ∈ (ensure_sink srv name desc).server.sinks, tabC ∉ e.2 := by
  unfold ensure_sink
  split
  · exact hsk
  · intro e he
    simp only [load_null_sink, List.mem_append, List.mem_singleton] at he
    rcases he with he | rfl
    · exact hsk e he
    · exact h1

theorem ensure_sink_good_sources (srv : AudioServer) (name desc : Str)
    (hsr : ∀ e ∈ srv.sources, tabC ∉ e.2) (h1 : tabC ∉ name) :
    ∀ e ∈ (ensure_sink srv name desc).server.sources, tabC ∉ e.2 := by
  unfold ensure_sink
  split
  · exact hsr
  · intro e he
    simp only [load_null_sink, List.mem_append, List.mem_singleton] at he
    rcases he with he | rfl
    · exact hsr e he
    · intro hmem
      rcases List.mem_append.mp hmem with hm | hm
      · exact h1 hm
      · exact absurd hm (by decide)

/- ----------------------------------------------------------------- -/
/- Claim theorems                                                      -/
/- ----------------------------------------------------------------- -/

/-- C1: every provisioning step is idempotent per endpoint name, for both
endpoint kinds the code provisions: the sink steps (`ensure_sink`, speaker
and mic sinks) and the remap-source step (`ensure_remap_source`, the
mic-facing source).  Whenever the first invocation creates the endpoint
(createdByUs = true), it issues exactly the creation command; invoking the
same step again with the same name issues no creation command, returns
createdByUs = false, leaves the server unchanged, and the corresponding
listing then contains exactly one entry with that name. -/
theorem ensure_endpoint_idempotent (srv : AudioServer) (name master desc : Str) :
    ((ensure_sink srv name desc).createdByUs = true →
      (ensure_sink srv name desc).cmds = [Cmd.loadNullSink name desc] ∧
      (ensure_sink (ensure_sink srv name desc).server name desc).createdByUs = false ∧
      (ensure_sink (ensure_sink srv name desc).server name desc).cmds = [] ∧
      (ensure_sink (ensure_sink srv name desc).server name desc).server =
        (ensure_sink srv name desc).server ∧
      (ensure_sink srv name desc).server.sinks.countP
        (fun e => decide (e.2 = name)) = 1) ∧
    ((ensure_remap_source srv name master desc).createdByUs = true →
      (ensure_remap_source srv name master desc).cmds =
        [Cmd.loadRemapSource name master desc] ∧
      (ensure_remap_source (ensure_remap_source srv name master desc).server
        name master desc).createdByUs = false ∧
      (ensure_remap_source (ensure_remap_source srv name master desc).server
        name master desc).cmds = [] ∧
      (ensure_remap_source (ensure_remap_source srv name master desc).server
        name master desc).server = (ensure_remap_source srv name master desc).server ∧
      (ensure_remap_source srv name master desc).server.sources.countP
        (fun e => decide (e.2 = name)) = 1) := by
  constructor
  · intro h
    have hex : sink_exists srv.sinks name = false := by
      cases hx : sink_exists srv.sinks name
      · rfl
      · rw [ensure_sink, if_pos hx] at h
        simp at h
    have hzero : srv.sinks.countP (fun e => decide (e.2 = name)) = 0 := by
      rw [List.countP_eq_zero]
      intro e he hcon
      rw [decide_eq_true_eq] at hcon
      have hmem : name ∈ srv.sinks.map Prod.snd := by
        rw [← hcon]
        exact List.mem_map_of_mem Prod.snd he
      have h2 : sink_exists srv.sinks name = true := short_exists_of_mem hmem
      rw [hex] at h2
      exact Bool.false_ne_true h2
    have hsrv1 : (ensure_sink srv name desc).server = load_null_sink srv name := by
      rw [ensure_sink, if_neg (by simp [hex])]
    have hex2 : sink_exists (load_null_sink srv name).sinks name = true := by
      apply short_exists_of_mem
      simp [load_null_sink]
    refine ⟨?_, ?_, ?_, ?_, ?_⟩
    · rw [ensure_sink, if_neg (by simp [hex])]
    · rw [hsrv1, ensure_sink, if_pos hex2]
    · rw [hsrv1, ensure_sink, if_pos hex2]
    · rw [hsrv1, ensure_sink, if_pos hex2]
    · rw [hsrv1]
      simp only [load_null_sink, List.countP_append, hzero]
      simp
  · intro h
    have hex : source_exists srv.sources name = false := by
      cases hx : source_exists srv.sources name
      · rfl
      · rw [ensure_remap_source, if_pos hx] at h
        simp at h
    have hzero : srv.sources.countP (fun e => decide (e.2 = name)) = 0 := by
      rw [List.countP_eq_zero]
      intro e he hcon
      rw [decide_eq_true_eq] at hcon
      have hmem : name ∈ srv.sources.map Prod.snd := by
        rw [← hcon]
        exact List.mem_map_of_mem Prod.snd he
      have h2 : source_exists srv.sources name = true := short_exists_of_mem hmem
      rw [hex] at h2
      exact Bool.false_ne_true h2
    have hsrv1 : (ensure_remap_source srv name master desc).server =
        load_remap_source srv name := by
      rw [ensure_remap_source, if_neg (by simp [hex])]
    have hex2 : source_exists (load_remap_source srv name).sources name = true := by
      apply short_exists_of_mem
      simp [load_remap_source]
    refine ⟨?_, ?_, ?_, ?_, ?_⟩
    · rw [ensure_remap_source, if_neg (by simp [hex])]
    · rw [hsrv1, ensure_remap_source, if_pos hex2]
    · rw [hsrv1, ensure_remap_source, if_pos hex2]
    · rw [hsrv1, ensure_remap_source, if_pos hex2]
    · rw [hsrv1]
      simp only [load_remap_source, List.countP_append, hzero]
      simp

/-- C1, witness: the theorem applied to the empty server, for the speaker
sink name on the sink step and the mic-facing source name (with its
master) on the remap step; both first invocations create, by evaluation. -/
theorem ensure_endpoint_idempotent_witness :
    ((ensure_sink srvEmpty spkName spkDesc).cmds = [Cmd.loadNullSink spkName spkDesc] ∧
     (ensure_sink (ensure_sink srvEmpty spkName spkDesc).server spkName spkDesc).createdByUs = false ∧
     (ensure_sink (ensure_sink srvEmpty spkName spkDesc).server spkName spkDesc).cmds = [] ∧
     (ensure_sink (ensure_sink srvEmpty spkName spkDesc).server spkName spkDesc).server =
       (ensure_sink srvEmpty spkName spkDesc).server ∧
     (ensure_sink srvEmpty spkName spkDesc).server.sinks.countP
       (fun e => decide (e.2 = spkName)) = 1) ∧
    ((ensure_remap_source srvEmpty micSrcName micMaster micSrcDesc).cmds =
       [Cmd.loadRemapSource micSrcName micMaster micSrcDesc] ∧
     (ensure_remap_source (ensure_remap_source srvEmpty micSrcName micMaster micSrcDesc).server
       micSrcName micMaster micSrcDesc).createdByUs = false ∧
     (ensure_remap_source (ensure_remap_source srvEmpty micSrcName micMaster micSrcDesc).server
       micSrcName micMaster micSrcDesc).cmds = [] ∧
     (ensure_remap_source (ensure_remap_source srvEmpty micSrcName micMaster micSrcDesc).server
       micSrcName micMaster micSrcDesc).server =
       (ensure_remap_source srvEmpty micSrcName micMaster micSrcDesc).server ∧
     (ensure_remap_source srvEmpty micSrcName micMaster micSrcDesc).server.sources.countP
       (fun e => decide (e.2 = micSrcName)) = 1) :=
  ⟨(ensure_endpoint_idempotent srvEmpty spkName micMaster spkDesc).1 (by decide),
   (ensure_endpoint_idempotent srvEmpty micSrcName micMaster micSrcDesc).2 (by decide)⟩

/-- C2, counterexample: the teardown node-id lookup is a substring grep, not
exact field matching.  On a listing whose only node is named
`rtsp_spk_extra`, the lookup for the name `rtsp_spk` (a proper prefix of
that name) still resolves to id 60, although no listing entry's name field
equals `rtsp_spk`. -/
theorem lookup_prefix_name_false_positive :
    lookup_node_id nodesC2 patSpk = "60".toList ∧
    ((nodesC2.map Prod.snd).contains "rtsp_spk".toList) = false := by
  decide

/-- C2 (amended): the provisioning existence check is exact field matching:
for any sink table with tab-free name fields, and any searched name that is
tab- and newline-free and is none of the fixed non-name columns, the check
reports presence exactly when some entry's name field equals the searched
name — a name that is a proper prefix of another listed name is not matched.
The teardown node-id lookup, by contrast, is the substring heuristic
refuted in the counterexample. -/
theorem sink_exists_exact_field (sinks : List (Nat × Str)) (name : Str)
    (h1 : tabC ∉ name) (h2 : nlC ∉ name) (h3 : ∀ e ∈ sinks, tabC ∉ e.2)
    (h4 : name ≠ driverField) (h5 : name ≠ specField) (h6 : name ≠ stateField) :
    sink_exists sinks name = decide (name ∈ sinks.map Prod.snd) := by
  have h := short_exists_iff_mem sinks name h1 h2 h3 h4 h5 h6
  by_cases hm : name ∈ sinks.map Prod.snd
  · rw [decide_eq_true hm]
    exact h.mpr hm
  · rw [decide_eq_false hm]
    cases hx : sink_exists sinks name
    · rfl
    · exact absurd (h.mp hx) hm

/-- C2, witness: the amended theorem applied to a sink table containing
`rtsp_mic_sink`, searching for its proper prefix `rtsp_mic`. -/
theorem sink_exists_exact_field_witness :
    (tabC ∉ micSrcName) ∧
    sink_exists entC2 micSrcName = decide (micSrcName ∈ entC2.map Prod.snd) :=
  ⟨by decide,
   sink_exists_exact_field entC2 micSrcName (by decide) (by decide) (by decide)
     (by decide) (by decide) (by decide)⟩

/-- C3: `spawn_process` returns a pid immediately and reports no failure
synchronously: the returned handle is the same whether or not the binary
can be executed.  On exec failure the child is left exited with status 127,
and the only observable difference is that a subsequent liveness check
reports the process dead (it reports it alive when exec succeeded). -/
theorem spawn_exec_failure_asynchronous (t : ProcTable) (args : List String)
    (env : List (String × String))
    (hfresh : ∀ e ∈ t.procs, e.1 < t.nextPid) (hpos : 0 < t.nextPid) :
    (spawn_process t args env false).1 = t.nextPid ∧
    (spawn_process t args env true).1 = (spawn_process t args env false).1 ∧
    statusOf (spawn_process t args env false).2 t.nextPid = some (.zombie 127) ∧
    (check_process_alive (spawn_process t args env false).2 t.nextPid).1 = false ∧
    (check_process_alive (spawn_process t args env true).2 t.nextPid).1 = true := by
  have hne : ∀ e ∈ t.procs, ((fun e : Int × ProcEntry => e.1 == t.nextPid) e) = false := by
    intro e he
    have := hfresh e he
    simp only [beq_eq_false_iff_ne, ne_eq]
    omega
  have hsf : statusOf (spawn_process t args env false).2 t.nextPid =
      some (.zombie 127) := by
    unfold statusOf spawn_process
    rw [find?_append_none _ _ hne]
    simp [List.find?]
  have hst : statusOf (spawn_process t args env true).2 t.nextPid =
      some .running := by
    unfold statusOf spawn_process
    rw [find?_append_none _ _ hne]
    simp [List.find?]
  refine ⟨rfl, rfl, hsf, ?_, ?_⟩
  · have hw : waitpid_wnohang (spawn_process t args env false).2 t.nextPid =
        (t.nextPid, setStatus (spawn_process t args env false).2 t.nextPid .gone) := by
      simp [waitpid_wnohang, hsf]
    rw [check_process_alive, if_neg (by omega), hw]
    show (t.nextPid == 0) = false
    simp only [beq_eq_false_iff_ne, ne_eq]
    omega
  · have hw : waitpid_wnohang (spawn_process t args env true).2 t.nextPid =
        (0, (spawn_process t args env true).2) := by
      simp [waitpid_wnohang, hst]
    rw [check_process_alive, if_neg (by omega), hw]
    rfl

/-- C3, witness: the theorem applied to an empty process table (first fork
returns pid 1). -/
theorem spawn_exec_failure_asynchronous_witness :
    (0 : Int) < tblC3.nextPid ∧
    ((spawn_process tblC3 ["ffmpeg"] mic_env false).1 = tblC3.nextPid ∧
     (spawn_process tblC3 ["ffmpeg"] mic_env true).1 =
       (spawn_process tblC3 ["ffmpeg"] mic_env false).1 ∧
     statusOf (spawn_process tblC3 ["ffmpeg"] mic_env false).2 tblC3.nextPid =
       some (.zombie 127) ∧
     (check_process_alive (spawn_process tblC3 ["ffmpeg"] mic_env false).2 tblC3.nextPid).1 = false ∧
     (check_process_alive (spawn_process tblC3 ["ffmpeg"] mic_env true).2 tblC3.nextPid).1 = true) :=
  ⟨by decide,
   spawn_exec_failure_asynchronous tblC3 ["ffmpeg"] mic_env (by decide) (by decide)⟩

/-- C4: `check_process_alive` is a non-blocking wait: it reports alive
exactly when the handle is a positive pid on which the wait reports no
status change (result 0); when the wait reports a termination it returns
false and has reaped the handle; and on an already-reaped or unknown or
non-positive handle it returns false (with the table untouched), never an
error. -/
theorem check_process_alive_contract (t : ProcTable) (pid : Int) :
    ((check_process_alive t pid).1 = true ↔
       (0 < pid ∧ (waitpid_wnohang t pid).1 = 0)) ∧
    (pid ≤ 0 → check_process_alive t pid = (false, t)) ∧
    (0 < pid → statusOf t pid = some .running → check_process_alive t pid = (true, t)) ∧
    (0 < pid → (waitpid_wnohang t pid).1 = pid →
       check_process_alive t pid = (false, setStatus t pid .gone)) ∧
    (statusOf t pid = some .gone → (check_process_alive t pid).1 = false) ∧
    (statusOf t pid = none → (check_process_alive t pid).1 = false) := by
  by_cases hp : pid ≤ 0
  · have hc : check_process_alive t pid = (false, t) := by
      rw [check_process_alive, if_pos hp]
    refine ⟨?_, fun _ => hc, ?_, ?_, ?_, ?_⟩
    · rw [hc]
      constructor
      · intro hfalse
        exact absurd hfalse (by simp)
      · rintro ⟨hlt, -⟩
        omega
    · intro hlt
      omega
    · intro hlt
      omega
    · intro _
      rw [hc]
    · intro _
      rw [hc]
  · have hp2 : 0 < pid := by omega
    have hcheck : check_process_alive t pid =
        ((waitpid_wnohang t pid).1 == 0, (waitpid_wnohang t pid).2) := by
      rw [check_process_alive, if_neg hp]
    refine ⟨?_, fun h => absurd h hp, ?_, ?_, ?_, ?_⟩
    · rw [hcheck]
      constructor
      · intro hh
        exact ⟨hp2, by simpa using hh⟩
      · rintro ⟨-, hh⟩
        simpa using hh
    · intro _ hrun
      have hw : waitpid_wnohang t pid = (0, t) := by simp [waitpid_wnohang, hrun]
      rw [hcheck, hw]
      rfl
    · intro _ hpid
      rcases hzz : statusOf t pid with - | st
      · simp [waitpid_wnohang, hzz] at hpid
        omega
      · cases st with
        | running =>
          simp [waitpid_wnohang, hzz] at hpid
          omega
        | zombie c =>
          have hw : waitpid_wnohang t pid = (pid, setStatus t pid .gone) := by
            simp [waitpid_wnohang, hzz]
          rw [hcheck, hw]
          have : (pid == 0) = false := by
            simp only [beq_eq_false_iff_ne, ne_eq]
            omega
          rw [this]
        | gone =>
          simp [waitpid_wnohang, hzz] at hpid
          omega
    · intro hgone
      have hw : waitpid_wnohang t pid = (-1, t) := by simp [waitpid_wnohang, hgone]
      rw [hcheck, hw]
      rfl
    · intro hnone
      have hw : waitpid_wnohang t pid = (-1, t) := by simp [waitpid_wnohang, hnone]
      rw [hcheck, hw]
      rfl

/-- C4, witness: the theorem applied to a table holding a running, an
exited and an already-reaped child, at the running child's pid. -/
theorem check_process_alive_contract_witness :
    ((check_process_alive tblC4 1).1 = true ↔
       ((0 : Int) < 1 ∧ (waitpid_wnohang tblC4 1).1 = 0)) ∧
    ((1 : Int) ≤ 0 → check_process_alive tblC4 1 = (false, tblC4)) ∧
    ((0 : Int) < 1 → statusOf tblC4 1 = some .running →
       check_process_alive tblC4 1 = (true, tblC4)) ∧
    ((0 : Int) < 1 → (waitpid_wnohang tblC4 1).1 = 1 →
       check_process_alive tblC4 1 = (false, setStatus tblC4 1 .gone)) ∧
    (statusOf tblC4 1 = some .gone → (check_process_alive tblC4 1).1 = false) ∧
    (statusOf tblC4 1 = none → (check_process_alive tblC4 1).1 = false) :=
  check_process_alive_contract tblC4 1

/-- C8: teardown tolerates missing endpoints.  It never issues a destroy
command for an empty lookup result (so it does not fail when zero, one or
all of the endpoints are already absent from the listing); each endpoint
whose lookup does yield an id is still destroyed (the speaker and mic-sink
steps unconditionally, the remap step under its guard), independently of
the other lookups; and when every lookup is empty nothing is destroyed. -/
theorem cleanup_tolerates_missing_endpoints (nodes : List (Nat × Str)) :
    ((cleanup_destroys nodes).count [] = 0) ∧
    (lookup_node_id nodes patSpk ≠ [] →
       lookup_node_id nodes patSpk ∈ cleanup_destroys nodes) ∧
    (lookup_node_id nodes patMicSink ≠ [] →
       lookup_node_id nodes patMicSink ∈ cleanup_destroys nodes) ∧
    (lookup_node_id nodes patRemap ≠ [] →
       lookup_node_id nodes patRemap ≠ lookup_node_id nodes patMicSink →
       lookup_node_id nodes patRemap ∈ cleanup_destroys nodes) ∧
    ((lookup_node_id nodes patSpk = [] ∧ lookup_node_id nodes patMicSink = [] ∧
        lookup_node_id nodes patRemap = []) → cleanup_destroys nodes = []) := by
  refine ⟨destroy_plan_count_nil _ _ _, ?_, ?_, ?_, ?_⟩
  · intro h
    exact destroy_plan_mem_first _ _ h
  · intro h
    exact destroy_plan_mem_second _ _ h
  · intro h1 h2
    exact destroy_plan_mem_third _ _ h1 h2
  · rintro ⟨h1, h2, h3⟩
    unfold cleanup_destroys destroy_plan
    rw [h1, h2, h3]
    simp

/-- C8, witness: the theorem at the empty node listing (for example after
`pw-cli` failed or all endpoints were removed externally): all three
lookups are empty and no destroy command is issued. -/
theorem cleanup_tolerates_missing_endpoints_witness :
    ((cleanup_destroys []).count [] = 0) ∧
    (lookup_node_id [] patSpk ≠ [] →
       lookup_node_id [] patSpk ∈ cleanup_destroys []) ∧
    (lookup_node_id [] patMicSink ≠ [] →
       lookup_node_id [] patMicSink ∈ cleanup_destroys []) ∧
    (lookup_node_id [] patRemap ≠ [] →
       lookup_node_id [] patRemap ≠ lookup_node_id [] patMicSink →
       lookup_node_id [] patRemap ∈ cleanup_destroys []) ∧
    ((lookup_node_id [] patSpk = [] ∧ lookup_node_id [] patMicSink = [] ∧
        lookup_node_id [] patRemap = []) → cleanup_destroys [] = []) :=
  cleanup_tolerates_missing_endpoints []

/-- C9: the external-signal handler only flips the shutdown flag: every
other component of the session state — the process table, the audio-server
state, the tracked pids — is untouched, and no teardown happens there.
Cooperative cancellation: once the flag is cleared, the very next loop test
exits the loop, and the remaining loop performs no work and issues no
command, for any fuel and any pending keystrokes. -/
theorem signal_handler_sets_flag_only (cfg : Config) (w : World) (fuel : Nat)
    (keys : List (Option Char)) :
    (signal_handler w).running = false ∧
    (signal_handler w).table = w.table ∧
    (signal_handler w).server = w.server ∧
    (signal_handler w).child_pids = w.child_pids ∧
    (signal_handler w).micPid = w.micPid ∧
    (signal_handler w).spkPid = w.spkPid ∧
    main_loop cfg fuel (signal_handler w) keys = (signal_handler w, []) := by
  refine ⟨rfl, rfl, rfl, rfl, rfl, rfl, ?_⟩
  cases fuel with
  | zero => rfl
  | succ n => rw [main_loop, if_neg (by simp [signal_handler])]

/-- C5: provisioning creates or confirms the three endpoints in the fixed
order speaker sink, mic sink, mic remap source: the issued creation
commands form a subsequence of that fixed order; each step's creation
command is issued exactly when no entry with its name is in the
corresponding listing at that step (the step is skipped otherwise); the mic
sink is present in the sink table as soon as step 2 completes, before the
remap step (whose master is the mic sink's monitor) runs; and after
provisioning all three endpoints are present. -/
theorem provision_fixed_order (srv : AudioServer)
    (hsk : ∀ e ∈ srv.sinks, tabC ∉ e.2) (hsr : ∀ e ∈ srv.sources, tabC ∉ e.2) :
    List.Sublist (provision srv).cmds [cmdSpk, cmdMic, cmdRemap] ∧
    (cmdSpk ∈ (provision srv).cmds ↔ sink_exists srv.sinks spkName = false) ∧
    (cmdMic ∈ (provision srv).cmds ↔
       sink_exists (prov_step1 srv).server.sinks micSinkName = false) ∧
    (cmdRemap ∈ (provision srv).cmds ↔
       source_exists (prov_step2 srv).server.sources micSrcName = false) ∧
    micSinkName ∈ (prov_step2 srv).server.sinks.map Prod.snd ∧
    spkName ∈ (provision srv).server.sinks.map Prod.snd ∧
    micSinkName ∈ (provision srv).server.sinks.map Prod.snd ∧
    micSrcName ∈ (provision srv).server.sources.map Prod.snd := by
  have hcmds : (provision srv).cmds =
      (prov_step1 srv).cmds ++ (prov_step2 srv).cmds ++ (prov_step3 srv).cmds := rfl
  have hsrvfin : (provision srv).server = (prov_step3 srv).server := rfl
  have good1k : ∀ e ∈ (prov_step1 srv).server.sinks, tabC ∉ e.2 :=
    ensure_sink_good_sinks srv spkName spkDesc hsk (by decide)
  have good1r : ∀ e ∈ (prov_step1 srv).server.sources, tabC ∉ e.2 :=
    ensure_sink_good_sources srv spkName spkDesc hsr (by decide)
  have good2r : ∀ e ∈ (prov_step2 srv).server.sources, tabC ∉ e.2 :=
    ensure_sink_good_sources (prov_step1 srv).server micSinkName micSinkDesc good1r
      (by decide)
  have hm2 : micSinkName ∈ (prov_step2 srv).server.sinks.map Prod.snd :=
    ensure_sink_name_mem (prov_step1 srv).server micSinkName micSinkDesc good1k
      (by decide) (by decide) (by decide) (by decide) (by decide)
  have hsp1 : spkName ∈ (prov_step1 srv).server.sinks.map Prod.snd :=
    ensure_sink_name_mem srv spkName spkDesc hsk
      (by decide) (by decide) (by decide) (by decide) (by decide)
  have hsp2 : spkName ∈ (prov_step2 srv).server.sinks.map Prod.snd :=
    ensure_sink_sinks_super (prov_step1 srv).server micSinkName micSinkDesc hsp1
  have hms3 : micSrcName ∈ (prov_step3 srv).server.sources.map Prod.snd :=
    ensure_remap_name_mem (prov_step2 srv).server micSrcName micMaster micSrcDesc good2r
      (by decide) (by decide) (by decide) (by decide) (by decide)
  have hsinks3 : (prov_step3 srv).server.sinks = (prov_step2 srv).server.sinks :=
    ensure_remap_sinks (prov_step2 srv).server micSrcName micMaster micSrcDesc
  refine ⟨?_, ?_, ?_, ?_, hm2, ?_, ?_, ?_⟩
  · rw [hcmds]
    exact List.Sublist.append
      (List.Sublist.append (ensure_sink_cmds_sub srv spkName spkDesc)
        (ensure_sink_cmds_sub (prov_step1 srv).server micSinkName micSinkDesc))
      (ensure_remap_cmds_sub (prov_step2 srv).server micSrcName micMaster micSrcDesc)
  · rw [hcmds]
    constructor
    · intro hmem
      rcases List.mem_append.mp hmem with h12 | h3
      · rcases List.mem_append.mp h12 with hA | hB
        · exact (ensure_sink_cmds_iff srv spkName spkDesc).mp hA
        · exact absurd (ensure_sink_cmds_mem hB) (by decide)
      · exact absurd (ensure_remap_cmds_mem h3) (by decide)
    · intro hex
      exact List.mem_append_left _ (List.mem_append_left _
        ((ensure_sink_cmds_iff srv spkName spkDesc).mpr hex))
  · rw [hcmds]
    constructor
    · intro hmem
      rcases List.mem_append.mp hmem with h12 | h3
      · rcases List.mem_append.mp h12 with hA | hB
        · exact absurd (ensure_sink_cmds_mem hA) (by decide)
        · exact (ensure_sink_cmds_iff (prov_step1 srv).server micSinkName micSinkDesc).mp hB
      · exact absurd (ensure_remap_cmds_mem h3) (by decide)
    · intro hex
      exact List.mem_append_left _ (List.mem_append_right _
        ((ensure_sink_cmds_iff (prov_step1 srv).server micSinkName micSinkDesc).mpr hex))
  · rw [hcmds]
    constructor
    · intro hmem
      rcases List.mem_append.mp hmem with h12 | h3
      · rcases List.mem_append.mp h12 with hA | hB
        · exact absurd (ensure_sink_cmds_mem hA) (by decide)
        · exact absurd (ensure_sink_cmds_mem hB) (by decide)
      · exact (ensure_remap_cmds_iff (prov_step2 srv).server micSrcName micMaster
          micSrcDesc).mp h3
    · intro hex
      exact List.mem_append_right _
        ((ensure_remap_cmds_iff (prov_step2 srv).server micSrcName micMaster
          micSrcDesc).mpr hex)
  · rw [hsrvfin, hsinks3]
    exact hsp2
  · rw [hsrvfin, hsinks3]
    exact hm2
  · rw [hsrvfin]
    exact hms3

/-- C5, witness: the theorem at a server on which the speaker sink already
exists (so step 1 is skipped and steps 2 and 3 create). -/
theorem provision_fixed_order_witness :
    List.Sublist (provision srvC5).cmds [cmdSpk, cmdMic, cmdRemap] ∧
    (cmdSpk ∈ (provision srvC5).cmds ↔ sink_exists srvC5.sinks spkName = false) ∧
    (cmdMic ∈ (provision srvC5).cmds ↔
       sink_exists (prov_step1 srvC5).server.sinks micSinkName = false) ∧
    (cmdRemap ∈ (provision srvC5).cmds ↔
       source_exists (prov_step2 srvC5).server.sources micSrcName = false) ∧
    micSinkName ∈ (prov_step2 srvC5).server.sinks.map Prod.snd ∧
    spkName ∈ (provision srvC5).server.sinks.map Prod.snd ∧
    micSinkName ∈ (provision srvC5).server.sinks.map Prod.snd ∧
    micSrcName ∈ (provision srvC5).server.sources.map Prod.snd :=
  provision_fixed_order srvC5 (by decide) (by decide)

/-- C7, counterexample: teardown does not restrict itself to endpoints the
session created.  On a server where the speaker sink pre-exists with id 42,
provisioning reports createdByUs = false for it, yet cleanup still issues
the destroy command for id 42, and after teardown the pre-existing
`rtsp_spk` sink is no longer in the server listing. -/
theorem cleanup_destroys_preexisting_endpoint :
    (provision srvC7).spkCreated = false ∧
    Cmd.destroyNode "42".toList ∈ (cleanup wldC7).2 ∧
    decide ("rtsp_spk".toList ∈ ((cleanup wldC7).1.server.sinks.map Prod.snd)) = false := by
  decide

/-- C7 (amended): teardown's destroy commands are a function of the
audio-server node listing alone: the session records no createdByUs
information, so two sessions with the same server state issue the same
destroys regardless of what they created, and an endpoint that pre-existed
provisioning is destroyed exactly like one the session created. -/
theorem cleanup_ignores_provenance (w1 w2 : World) (h : w1.server = w2.server) :
    (cleanup w1).2 = (cleanup w2).2 ∧
    (cleanup w1).2 = (cleanup_destroys (nodesOf w1.server)).map Cmd.destroyNode := by
  constructor
  · show (cleanup_destroys (nodesOf w1.server)).map Cmd.destroyNode =
      (cleanup_destroys (nodesOf w2.server)).map Cmd.destroyNode
    rw [h]
  · rfl

/-- C7, witness: the amended theorem at two sessions sharing the server
state left by provisioning over `srvC7` but with different process state. -/
theorem cleanup_ignores_provenance_witness :
    (cleanup wldC7a).2 = (cleanup wldC7b).2 ∧
    (cleanup wldC7a).2 = (cleanup_destroys (nodesOf wldC7a.server)).map Cmd.destroyNode :=
  cleanup_ignores_provenance wldC7a wldC7b rfl

/-- C6, counterexample: restart does not re-spawn the speaker pipeline with
the initial argv template: at the same image path and URL the initial
template has `-framerate 60` and the drawtext overlay filter, while the
restart template has `-framerate 1` and no `-vf` filter. -/
theorem restart_spk_argv_differs :
    (spk_args_initial "img.png" "rtsp://h/spk" ==
       spk_args_restart "img.png" "rtsp://h/spk") = false ∧
    (spk_args_initial "img.png" "rtsp://h/spk").getD 8 "" = "60" ∧
    (spk_args_restart "img.png" "rtsp://h/spk").getD 8 "" = "1" ∧
    ((spk_args_initial "img.png" "rtsp://h/spk").contains "-vf") = true ∧
    ((spk_args_restart "img.png" "rtsp://h/spk").contains "-vf") = false := by
  decide

/-- C6 (amended): the restart branch issues no audio-server command (it
creates and destroys no endpoints), replaces the tracked process set with
exactly the two freshly spawned handles (which become the new mic and
speaker pids), re-spawns the mic pipeline with argv and environment
identical to the initial spawn's, and re-spawns the speaker pipeline with
the restart argv template — which, as the counterexample records, differs
from the initial speaker template. -/
theorem restart_replaces_process_set (cfg : Config) (w : World)
    (hfresh : ∀ e ∈ w.table.procs, e.1 < w.table.nextPid) :
    (restart_pipelines cfg w).2 = [] ∧
    (restart_pipelines cfg w).1.server = w.server ∧
    (restart_pipelines cfg w).1.child_pids = [w.table.nextPid, w.table.nextPid + 1] ∧
    (restart_pipelines cfg w).1.micPid = w.table.nextPid ∧
    (restart_pipelines cfg w).1.spkPid = w.table.nextPid + 1 ∧
    argvOf (restart_pipelines cfg w).1.table w.table.nextPid =
      some (mic_args_restart cfg.micUrl) ∧
    envOf (restart_pipelines cfg w).1.table w.table.nextPid = some mic_env ∧
    argvOf (restart_pipelines cfg w).1.table (w.table.nextPid + 1) =
      some (spk_args_restart cfg.imagePath cfg.spkUrl) ∧
    mic_args_restart cfg.micUrl = mic_args_initial cfg.micUrl := by
  have hnp : (signal_all w.table w.child_pids).nextPid = w.table.nextPid :=
    signal_all_nextPid w.child_pids w.table
  have hf : ∀ e ∈ (signal_all w.table w.child_pids).procs,
      e.1 ≠ (signal_all w.table w.child_pids).nextPid ∧
      e.1 ≠ (signal_all w.table w.child_pids).nextPid + 1 := by
    intro e he
    have hmem : e.1 ∈ (signal_all w.table w.child_pids).procs.map Prod.fst :=
      List.mem_map_of_mem Prod.fst he
    rw [signal_all_fst] at hmem
    rcases List.mem_map.mp hmem with ⟨e2, he2, heq⟩
    have hlt := hfresh e2 he2
    constructor
    · rw [hnp, ← heq]
      omega
    · rw [hnp, ← heq]
      omega
  have H := spawn_twice_lookup (signal_all w.table w.child_pids)
    (mic_args_restart cfg.micUrl) (spk_args_restart cfg.imagePath cfg.spkUrl)
    mic_env [] w.execOk hf
  rw [hnp] at H
  refine ⟨rfl, rfl, ?_, ?_, ?_, H.1, H.2.1, H.2.2, rfl⟩
  · show [(signal_all w.table w.child_pids).nextPid,
      (signal_all w.table w.child_pids).nextPid + 1] = _
    rw [hnp]
  · show (signal_all w.table w.child_pids).nextPid = _
    rw [hnp]
  · show (signal_all w.table w.child_pids).nextPid + 1 = _
    rw [hnp]

/-- C6, witness: the amended theorem at a session with one tracked running
process. -/
theorem restart_replaces_process_set_witness :
    (restart_pipelines cfgC6 wldC6).2 = [] ∧
    (restart_pipelines cfgC6 wldC6).1.server = wldC6.server ∧
    (restart_pipelines cfgC6 wldC6).1.child_pids =
      [wldC6.table.nextPid, wldC6.table.nextPid + 1] ∧
    (restart_pipelines cfgC6 wldC6).1.micPid = wldC6.table.nextPid ∧
    (restart_pipelines cfgC6 wldC6).1.spkPid = wldC6.table.nextPid + 1 ∧
    argvOf (restart_pipelines cfgC6 wldC6).1.table wldC6.table.nextPid =
      some (mic_args_restart cfgC6.micUrl) ∧
    envOf (restart_pipelines cfgC6 wldC6).1.table wldC6.table.nextPid = some mic_env ∧
    argvOf (restart_pipelines cfgC6 wldC6).1.table (wldC6.table.nextPid + 1) =
      some (spk_args_restart cfgC6.imagePath cfgC6.spkUrl) ∧
    mic_args_restart cfgC6.micUrl = mic_args_initial cfgC6.micUrl :=
  restart_replaces_process_set cfgC6 wldC6 (by decide)

end SetupRtspAudio
